import Mathlib

/-!
Verification of the screen connection registry and playlist broadcast
mechanism of the digital-signage server (src/unnamed/part_000, the two
variants of the routes module).

The registry `screenConnections` is a JavaScript `Map<string, WebSocket>`
(part_000 lines 45 and 492).  A JS `Map` is an insertion-ordered
collection with unique keys: `set` replaces the value in place when the
key is present and appends otherwise; `delete` removes the (unique) entry
with the key; iteration (`entries()`) follows insertion order.  We embed
it as an insertion-ordered association list `List (String × Conn)`; the
recursive `mapSet`/`mapDelete`/`mapGet` below implement exactly those
semantics (replace-at-first-occurrence coincides with the JS behaviour
because a `Map` never holds two entries with the same key, an invariant
`keysNodup` proved preserved below).

Connections are compared by reference identity in the source
(`connection === ws`); we model a connection handle as a `Nat` identifier,
with `WebSocket` equality as `Nat` equality.  The `readyState` check and
the possibility of `send` throwing are modelled as boolean parameters
`isOpen` and `sendFails` on the connection, since they are properties of
the underlying socket, not of the registry.
-/

namespace Signage

/-- A WebSocket connection handle; `===` identity of the source becomes
`Nat` equality. -/
abbrev Conn := Nat

/-- The `screenConnections` map: deviceKey to connection, in insertion
order. -/
abbrev Registry := List (String × Conn)

/-- `Map.get`: the value of the (first) entry with the given key. -/
def mapGet : Registry → String → Option Conn
  | [], _ => none
  | p :: rest, k => if p.1 = k then some p.2 else mapGet rest k

/-- `Map.set`: replace the value at the key if present (keeping insertion
order), otherwise append a new entry at the end. -/
def mapSet : Registry → String → Conn → Registry
  | [], k, v => [(k, v)]
  | p :: rest, k, v => if p.1 = k then (k, v) :: rest else p :: mapSet rest k v

/-- `Map.delete`: remove the (first) entry with the given key. -/
def mapDelete : Registry → String → Registry
  | [], _ => []
  | p :: rest, k => if p.1 = k then rest else p :: mapDelete rest k

/-- Well-formedness of the embedding: distinct keys, as a JS `Map`
guarantees. -/
def keysNodup (m : Registry) : Prop := (m.map Prod.fst).Nodup

instance (m : Registry) : Decidable (keysNodup m) :=
  inferInstanceAs (Decidable ((m.map Prod.fst).Nodup))

/-- Observable server state touched by the WebSocket handlers of the first
variant: the registry plus the log of `storage.updateScreenOnlineStatus`
calls (deviceKey, isOnline), in call order. -/
structure ServerState where
  screenConnections : Registry
  onlineCalls : List (String × Bool)
deriving DecidableEq, Repr

/-- An inbound WebSocket message after `JSON.parse` of its body.
`playerRegister ""` stands for a missing or empty `payload.deviceKey`
(both falsy, so both rejected by the source's `if (deviceKey)` guard);
likewise `registerScreen ""` for a falsy `data.screenId`.  `malformed`
stands for a body that `JSON.parse` rejects (the thrown error is caught
by the handler's try/catch), `unknownType` for a parseable body whose
`type` tag matches no branch. -/
inductive WsMessage where
  | playerRegister (deviceKey : String)
  | playerStatus (deviceKey status : String)
  | registerScreen (screenId : String)
  | unknownType
  | malformed
deriving DecidableEq, Repr

/-- The `ws.on('message')` handler of the first variant (part_000 lines
446-465): on `PLAYER_REGISTER` with a truthy deviceKey, `set` the registry
entry and mark the screen online; on `PLAYER_STATUS` only log; any other
type, and any parse error, falls through with no state change (the
try/catch makes the handler total). -/
def handleMessage (s : ServerState) (ws : Conn) (msg : WsMessage) : ServerState :=
  match msg with
  | .playerRegister deviceKey =>
      if deviceKey = "" then s
      else
        { s with
          screenConnections := mapSet s.screenConnections deviceKey ws,
          onlineCalls := s.onlineCalls ++ [(deviceKey, true)] }
  | .playerStatus _ _ => s
  | .registerScreen _ => s
  | .unknownType => s
  | .malformed => s

/-- The `ws.on('close')` handler of the first variant (part_000 lines
467-477): scan the entries in insertion order for the first one whose
value is the closing connection (`connection === ws`), delete that key,
mark that deviceKey offline, and `break`. -/
def handleClose (s : ServerState) (ws : Conn) : ServerState :=
  match s.screenConnections.find? (fun p => p.2 = ws) with
  | some kv =>
      { s with
        screenConnections := mapDelete s.screenConnections kv.1,
        onlineCalls := s.onlineCalls ++ [(kv.1, false)] }
  | none => s

/-- Observable state of the second variant (part_000 lines 845-902), which
additionally installs, on each `REGISTER_SCREEN` message, a per-
registration close listener that deletes by key (`screenConnections.delete
(data.screenId)`).  `closeHandlers` records those installed listeners as
(connection, screenId) in installation order. -/
structure Server2State where
  screenConnections : Registry
  closeHandlers : List (Conn × String)
  onlineCalls : List (String × Bool)
deriving DecidableEq, Repr

/-- The two `ws.on('message')` listeners of the second variant (part_000
lines 849-866 and 868-887); their type tags are disjoint, so at most one
acts on a given message.  `REGISTER_SCREEN` with a truthy screenId `set`s
the registry and installs a key-based close listener; `PLAYER_REGISTER`
and `PLAYER_STATUS` behave as in the first variant. -/
def handleMessage2 (s : Server2State) (ws : Conn) (msg : WsMessage) : Server2State :=
  match msg with
  | .registerScreen screenId =>
      if screenId = "" then s
      else
        { s with
          screenConnections := mapSet s.screenConnections screenId ws,
          closeHandlers := s.closeHandlers ++ [(ws, screenId)] }
  | .playerRegister deviceKey =>
      if deviceKey = "" then s
      else
        { s with
          screenConnections := mapSet s.screenConnections deviceKey ws,
          onlineCalls := s.onlineCalls ++ [(deviceKey, true)] }
  | .playerStatus _ _ => s
  | .unknownType => s
  | .malformed => s

/-- Close of a connection in the second variant: the listeners fire in
installation order — first the connection-level value-match handler
(part_000 lines 889-901, installed at connection time), then every
key-based listener this connection installed via `REGISTER_SCREEN`
(part_000 lines 858-861), each deleting its captured screenId. -/
def handleClose2 (s : Server2State) (ws : Conn) : Server2State :=
  let s1 : Server2State :=
    match s.screenConnections.find? (fun p => p.2 = ws) with
    | some kv =>
        { s with
          screenConnections := mapDelete s.screenConnections kv.1,
          onlineCalls := s.onlineCalls ++ [(kv.1, false)] }
    | none => s
  { s1 with
    screenConnections :=
      ((s.closeHandlers.filter (fun p => p.1 = ws)).map Prod.snd).foldl
        mapDelete s1.screenConnections }

/-- The message built once before the dispatch loop (part_000 lines
364-370): `JSON.stringify` of the LOAD_PLAYLIST instruction.  The playlist
argument is its already-serialized JSON value. -/
def loadPlaylistMessage (playlist broadcastId : String) : String :=
  "\x7b\"type\":\"LOAD_PLAYLIST\",\"payload\":\x7b\"playlist\":" ++ playlist ++
    ",\"broadcastId\":\"" ++ broadcastId ++ "\"\x7d\x7d"

/-- Whether a target identity would be delivered to: present in the
registry and its connection in the OPEN ready state. -/
def targetDelivered (registry : Registry) (isOpen : Conn → Bool) (screenId : String) : Bool :=
  match mapGet registry screenId with
  | some screen => isOpen screen
  | none => false

/-- The dispatch loop of POST /api/broadcasts (part_000 lines 372-377)
when no send throws: for each screenId in order, look it up in
`screenConnections`; if found and `readyState === WebSocket.OPEN`, send
the shared message; otherwise skip silently.  Returns the list of sends
(connection, message) in send order. -/
def dispatchSends (registry : Registry) (isOpen : Conn → Bool) (message : String) :
    List String → List (Conn × String)
  | [] => []
  | screenId :: rest =>
      match mapGet registry screenId with
      | some screen =>
          if isOpen screen then
            (screen, message) :: dispatchSends registry isOpen message rest
          else
            dispatchSends registry isOpen message rest
      | none => dispatchSends registry isOpen message rest

/-- The same dispatch loop with a fallible `send`: `sendFails c` says that
`screen.send(message)` throws on connection `c`.  A throw inside the
`forEach` callback propagates, so the loop stops at the first failing
send; the second component is `true` when the loop ran to completion and
`false` when an exception escaped it (to be caught by the route-level
catch, part_000 lines 400-403). -/
def dispatchLoop (registry : Registry) (isOpen : Conn → Bool) (sendFails : Conn → Bool)
    (message : String) : List String → List (Conn × String) × Bool
  | [] => ([], true)
  | screenId :: rest =>
      match mapGet registry screenId with
      | some screen =>
          if isOpen screen then
            if sendFails screen then ([], false)
            else
              let r := dispatchLoop registry isOpen sendFails message rest
              ((screen, message) :: r.1, r.2)
          else dispatchLoop registry isOpen sendFails message rest
      | none => dispatchLoop registry isOpen sendFails message rest

/-- Outcome of the POST /api/broadcasts handler as far as dispatch is
concerned: `ok sends` when the loop completed (the route then proceeds to
respond with the broadcast), `serverError sends` when a send threw — the
route-level catch (part_000 lines 400-403) logs the error once and
responds 500, after the partial sends already made. -/
inductive RouteResult where
  | ok (sends : List (Conn × String))
  | serverError (sends : List (Conn × String))
deriving DecidableEq, Repr

/-- The dispatch portion of POST /api/broadcasts: build the message once,
run the loop, and let the single route-level try/catch decide the
response. -/
def broadcastRoute (registry : Registry) (isOpen : Conn → Bool) (sendFails : Conn → Bool)
    (playlist broadcastId : String) (screenIds : List String) : RouteResult :=
  let message := loadPlaylistMessage playlist broadcastId
  let r := dispatchLoop registry isOpen sendFails message screenIds
  if r.2 then .ok r.1 else .serverError r.1

/-! Basic lemmas about the `Map` embedding. -/

theorem mapGet_mapSet_self (m : Registry) (k : String) (v : Conn) :
    mapGet (mapSet m k v) k = some v := by
  induction m with
  | nil => simp [mapSet, mapGet]
  | cons p rest ih =>
      by_cases h : p.1 = k
      · simp [mapSet, h, mapGet]
      · simp [mapSet, h, mapGet, ih]

theorem mapGet_mapSet_ne (m : Registry) (k k' : String) (v : Conn) (h : k' ≠ k) :
    mapGet (mapSet m k v) k' = mapGet m k' := by
  induction m with
  | nil => simp [mapSet, mapGet, Ne.symm h]
  | cons p rest ih =>
      by_cases hp : p.1 = k
      · simp [mapSet, hp, mapGet, Ne.symm h]
      · by_cases hq : p.1 = k'
        · simp [mapSet, hp, mapGet, hq, h]
        · simp [mapSet, hp, mapGet, hq, ih]

theorem mem_keys_mapSet (m : Registry) (k a : String) (v : Conn) :
    a ∈ (mapSet m k v).map Prod.fst ↔ a ∈ m.map Prod.fst ∨ a = k := by
  induction m with
  | nil => simp [mapSet]
  | cons p rest ih =>
      by_cases hp : p.1 = k
      · simp [mapSet, hp]
        tauto
      · simp [mapSet, hp, ih]
        tauto

theorem keysNodup_mapSet (m : Registry) (k : String) (v : Conn)
    (h : keysNodup m) : keysNodup (mapSet m k v) := by
  induction m with
  | nil => simp [mapSet, keysNodup]
  | cons p rest ih =>
      simp only [keysNodup, List.map_cons, List.nodup_cons] at h
      by_cases hp : p.1 = k
      · rw [show mapSet (p :: rest) k v = (k, v) :: rest from by simp [mapSet, hp]]
        simp only [keysNodup, List.map_cons, List.nodup_cons]
        exact ⟨hp ▸ h.1, h.2⟩
      · rw [show mapSet (p :: rest) k v = p :: mapSet rest k v from by simp [mapSet, hp]]
        simp only [keysNodup, List.map_cons, List.nodup_cons]
        refine ⟨fun hmem => ?_, ih h.2⟩
        rcases (mem_keys_mapSet rest k p.1 v).mp hmem with hin | heq
        · exact h.1 hin
        · exact hp heq

theorem keys_mapDelete_sublist (m : Registry) (k : String) :
    List.Sublist ((mapDelete m k).map Prod.fst) (m.map Prod.fst) := by
  induction m with
  | nil => simp [mapDelete]
  | cons p rest ih =>
      by_cases hp : p.1 = k
      · simp [mapDelete, hp]
      · simpa [mapDelete, hp] using List.Sublist.cons₂ p.1 ih

theorem keysNodup_mapDelete (m : Registry) (k : String) (h : keysNodup m) :
    keysNodup (mapDelete m k) :=
  List.Nodup.sublist (keys_mapDelete_sublist m k) h

theorem mapGet_mapDelete_ne (m : Registry) (k k' : String) (h : k' ≠ k) :
    mapGet (mapDelete m k) k' = mapGet m k' := by
  induction m with
  | nil => simp [mapDelete]
  | cons p rest ih =>
      by_cases hp : p.1 = k
      · simp [mapDelete, hp, mapGet, Ne.symm h]
      · by_cases hq : p.1 = k'
        · simp [mapDelete, hp, mapGet, hq, h]
        · simp [mapDelete, hp, mapGet, hq, ih]

theorem mapGet_mem (m : Registry) (k : String) (v : Conn)
    (h : mapGet m k = some v) : (k, v) ∈ m := by
  induction m with
  | nil => simp [mapGet] at h
  | cons p rest ih =>
      by_cases hp : p.1 = k
      · simp only [mapGet, if_pos hp, Option.some.injEq] at h
        have hpe : p = (k, v) := by
          calc p = (p.1, p.2) := rfl
            _ = (k, v) := by rw [hp, h]
        rw [← hpe]
        exact List.mem_cons_self p rest
      · simp only [mapGet, if_neg hp] at h
        exact List.mem_cons_of_mem p (ih h)

theorem mapGet_of_mem_nodup (m : Registry) (k : String) (v : Conn)
    (hnd : keysNodup m) (hm : (k, v) ∈ m) : mapGet m k = some v := by
  induction m with
  | nil => simp at hm
  | cons p rest ih =>
      simp only [keysNodup, List.map_cons, List.nodup_cons] at hnd
      rcases List.mem_cons.mp hm with heq | hmem
      · simp [mapGet, ← heq]
      · by_cases hp : p.1 = k
        · exact absurd (hp ▸ List.mem_map_of_mem Prod.fst hmem) hnd.1
        · simpa [mapGet, hp] using ih hnd.2 hmem

theorem filter_key_eq_nil (m : Registry) (k : String)
    (h : k ∉ m.map Prod.fst) : m.filter (fun p => p.1 = k) = [] := by
  induction m with
  | nil => simp
  | cons p rest ih =>
      simp only [List.map_cons, List.mem_cons, not_or] at h
      have hp : ¬ p.1 = k := fun hh => h.1 hh.symm
      simp [List.filter_cons, hp, ih h.2]

theorem filter_key_length_one (m : Registry) (k : String)
    (hnd : keysNodup m) (hmem : k ∈ m.map Prod.fst) :
    (m.filter (fun p => p.1 = k)).length = 1 := by
  induction m with
  | nil => simp at hmem
  | cons p rest ih =>
      simp only [keysNodup, List.map_cons, List.nodup_cons] at hnd
      by_cases hp : p.1 = k
      · have : k ∉ rest.map Prod.fst := hp ▸ hnd.1
        simp [List.filter_cons, hp, filter_key_eq_nil rest k this]
      · have hk : k ∈ rest.map Prod.fst := by
          rcases List.mem_cons.mp hmem with heq | hmem'
          · exact absurd heq.symm hp
          · exact hmem'
        simpa [List.filter_cons, hp] using ih hnd.2 hk

theorem mapDelete_length_of_mem (m : Registry) (k : String) (v : Conn)
    (h : (k, v) ∈ m) : (mapDelete m k).length + 1 = m.length := by
  induction m with
  | nil => simp at h
  | cons p rest ih =>
      by_cases hp : p.1 = k
      · simp [mapDelete, hp]
      · have hm : (k, v) ∈ rest := by
          rcases List.mem_cons.mp h with heq | hmem
          · exact absurd (by rw [← heq]) hp
          · exact hmem
        simpa [mapDelete, hp] using ih hm

/-! Lemmas about the dispatch loop. -/

theorem dispatchSends_eq_filterMap (registry : Registry) (isOpen : Conn → Bool)
    (message : String) (screenIds : List String) :
    dispatchSends registry isOpen message screenIds =
      screenIds.filterMap (fun screenId =>
        match mapGet registry screenId with
        | some screen => if isOpen screen then some (screen, message) else none
        | none => none) := by
  induction screenIds with
  | nil => simp [dispatchSends]
  | cons sid rest ih =>
      cases hget : mapGet registry sid with
      | some screen =>
          by_cases hopen : isOpen screen
          · simp [dispatchSends, hget, hopen, List.filterMap_cons, ih]
          · simp [dispatchSends, hget, hopen, List.filterMap_cons, ih]
      | none => simp [dispatchSends, hget, List.filterMap_cons, ih]

theorem dispatchSends_length (registry : Registry) (isOpen : Conn → Bool)
    (message : String) (screenIds : List String) :
    (dispatchSends registry isOpen message screenIds).length =
      (screenIds.filter (targetDelivered registry isOpen)).length := by
  induction screenIds with
  | nil => simp [dispatchSends]
  | cons sid rest ih =>
      cases hget : mapGet registry sid with
      | some screen =>
          by_cases hopen : isOpen screen
          · simp [dispatchSends, hget, hopen, targetDelivered, List.filter_cons, ih]
          · simp [dispatchSends, hget, hopen, targetDelivered, List.filter_cons, ih]
      | none => simp [dispatchSends, hget, targetDelivered, List.filter_cons, ih]

theorem dispatchLoop_no_failure (registry : Registry) (isOpen : Conn → Bool)
    (sendFails : Conn → Bool) (message : String) (screenIds : List String)
    (h : ∀ e ∈ dispatchSends registry isOpen message screenIds, sendFails e.1 = false) :
    dispatchLoop registry isOpen sendFails message screenIds =
      (dispatchSends registry isOpen message screenIds, true) := by
  induction screenIds with
  | nil => simp [dispatchLoop, dispatchSends]
  | cons sid rest ih =>
      cases hget : mapGet registry sid with
      | some screen =>
          by_cases hopen : isOpen screen
          · have hs : sendFails screen = false :=
              h (screen, message) (by simp [dispatchSends, hget, hopen])
            have hrest : ∀ e ∈ dispatchSends registry isOpen message rest,
                sendFails e.1 = false := by
              intro e he
              apply h
              simp [dispatchSends, hget, hopen, he]
            simp [dispatchLoop, dispatchSends, hget, hopen, hs, ih hrest]
          · have hrest : ∀ e ∈ dispatchSends registry isOpen message rest,
                sendFails e.1 = false := by
              intro e he
              apply h
              simpa [dispatchSends, hget, hopen] using he
            simp [dispatchLoop, dispatchSends, hget, hopen, ih hrest]
      | none =>
          have hrest : ∀ e ∈ dispatchSends registry isOpen message rest,
              sendFails e.1 = false := by
            intro e he
            apply h
            simpa [dispatchSends, hget] using he
          simp [dispatchLoop, dispatchSends, hget, ih hrest]

theorem dispatchLoop_append (registry : Registry) (isOpen : Conn → Bool)
    (sendFails : Conn → Bool) (message : String) (xs ys : List String) :
    dispatchLoop registry isOpen sendFails message (xs ++ ys) =
      (if (dispatchLoop registry isOpen sendFails message xs).2 then
        ((dispatchLoop registry isOpen sendFails message xs).1 ++
          (dispatchLoop registry isOpen sendFails message ys).1,
         (dispatchLoop registry isOpen sendFails message ys).2)
      else dispatchLoop registry isOpen sendFails message xs) := by
  induction xs with
  | nil => simp [dispatchLoop]
  | cons sid rest ih =>
      cases hget : mapGet registry sid with
      | some screen =>
          by_cases hopen : isOpen screen
          · by_cases hfail : sendFails screen
            · simp [dispatchLoop, hget, hopen, hfail]
            · by_cases hrest : (dispatchLoop registry isOpen sendFails message rest).2
              · simp [dispatchLoop, hget, hopen, hfail, ih, hrest]
              · simp [dispatchLoop, hget, hopen, hfail, ih, hrest]
          · simp [dispatchLoop, hget, hopen, ih]
      | none => simp [dispatchLoop, hget, ih]

theorem mapSet_idem (m : Registry) (k : String) (v : Conn) :
    mapSet (mapSet m k v) k v = mapSet m k v := by
  induction m with
  | nil => simp [mapSet]
  | cons p rest ih =>
      by_cases hp : p.1 = k
      · simp [mapSet, hp]
      · simp [mapSet, hp, ih]

theorem dispatchSends_message_eq (registry : Registry) (isOpen : Conn → Bool)
    (message : String) (screenIds : List String) :
    ∀ e ∈ dispatchSends registry isOpen message screenIds, e.2 = message := by
  induction screenIds with
  | nil => simp [dispatchSends]
  | cons sid rest ih =>
      cases hget : mapGet registry sid with
      | some screen =>
          by_cases hopen : isOpen screen
          · intro e he
            rcases List.mem_cons.mp (by simpa [dispatchSends, hget, hopen] using he)
              with heq | hmem
            · rw [heq]
            · exact ih e hmem
          · intro e he
            exact ih e (by simpa [dispatchSends, hget, hopen] using he)
      | none =>
          intro e he
          exact ih e (by simpa [dispatchSends, hget] using he)

theorem dispatchSends_eq_nil (registry : Registry) (isOpen : Conn → Bool)
    (message : String) (screenIds : List String)
    (h : ∀ sid ∈ screenIds, mapGet registry sid = none) :
    dispatchSends registry isOpen message screenIds = [] := by
  induction screenIds with
  | nil => simp [dispatchSends]
  | cons sid rest ih =>
      have h0 : mapGet registry sid = none := h sid (List.mem_cons_self sid rest)
      simp [dispatchSends, h0, ih (fun sid' h' => h sid' (List.mem_cons_of_mem _ h'))]

/-! The claims. -/

/-- C6: processing a PLAYER_REGISTER message whose payload has a missing or
empty `deviceKey` (both falsy, rejected by the `if (deviceKey)` guard at
part_000 line 452) is a no-op: the registry is unchanged, no mark-online
storage call is made, and — the handler being total — no exception is
raised and the connection's state does not change. -/
theorem playerRegister_empty_deviceKey_noop (s : ServerState) (ws : Conn) :
    handleMessage s ws (.playerRegister "") = s ∧
    (handleMessage s ws (.playerRegister "")).screenConnections = s.screenConnections ∧
    (handleMessage s ws (.playerRegister "")).onlineCalls = s.onlineCalls := by
  refine ⟨?_, ?_, ?_⟩ <;> simp [handleMessage]

/-- C7: an inbound WebSocket message with an unparseable body (the
`JSON.parse` error is caught by the handler's try/catch, part_000 lines
446-465) or with a `type` tag that is neither PLAYER_REGISTER nor
PLAYER_STATUS (including the second variant's REGISTER_SCREEN tag, which
the first variant's handler does not recognise) leaves the server state —
registry and storage-call log alike — unchanged; the handler is total, so
no exception escapes it and the connection is not closed. -/
theorem unrecognised_message_noop (s : ServerState) (ws : Conn) (screenId : String) :
    handleMessage s ws .malformed = s ∧
    handleMessage s ws .unknownType = s ∧
    handleMessage s ws (.registerScreen screenId) = s := by
  refine ⟨?_, ?_, ?_⟩ <;> rfl

/-- C8: processing a PLAYER_STATUS message (part_000 lines 457-461, which
only logs the payload) leaves the registry unchanged — every deviceKey
looks up to the same connection before and after — and triggers no storage
call. -/
theorem playerStatus_noop (s : ServerState) (ws : Conn) (deviceKey status : String) :
    handleMessage s ws (.playerStatus deviceKey status) = s ∧
    (∀ k, mapGet (handleMessage s ws (.playerStatus deviceKey status)).screenConnections k
      = mapGet s.screenConnections k) ∧
    (handleMessage s ws (.playerStatus deviceKey status)).onlineCalls = s.onlineCalls :=
  ⟨rfl, fun _ => rfl, rfl⟩

/-- C9: registration is idempotent on registry state — registering the
same deviceKey on the same connection twice in a row (two
`screenConnections.set(deviceKey, ws)` calls, part_000 line 453) leaves
the registry exactly as a single registration does, with the key looking
up to that connection and, under the Map key-uniqueness invariant, exactly
one entry for the key. -/
theorem playerRegister_idempotent (s : ServerState) (ws : Conn) (k : String)
    (hk : k ≠ "") :
    (handleMessage (handleMessage s ws (.playerRegister k)) ws
        (.playerRegister k)).screenConnections
      = (handleMessage s ws (.playerRegister k)).screenConnections ∧
    mapGet (handleMessage (handleMessage s ws (.playerRegister k)) ws
        (.playerRegister k)).screenConnections k = some ws ∧
    (keysNodup s.screenConnections →
      ((handleMessage (handleMessage s ws (.playerRegister k)) ws
          (.playerRegister k)).screenConnections.filter
        (fun p => p.1 = k)).length = 1) := by
  refine ⟨?_, ?_, ?_⟩
  · simp [handleMessage, hk, mapSet_idem]
  · simp [handleMessage, hk, mapSet_idem, mapGet_mapSet_self]
  · intro hnd
    have h1 : keysNodup (mapSet s.screenConnections k ws) :=
      keysNodup_mapSet s.screenConnections k ws hnd
    have h2 : k ∈ (mapSet s.screenConnections k ws).map Prod.fst :=
      (mem_keys_mapSet s.screenConnections k k ws).mpr (Or.inr rfl)
    simpa [handleMessage, hk, mapSet_idem] using
      filter_key_length_one (mapSet s.screenConnections k ws) k h1 h2

/-- Witness for C9 at a concrete input: registering "A" twice on
connection 1 from the empty state. -/
theorem playerRegister_idempotent_witness :
    ("A" : String) ≠ "" ∧
    ((handleMessage (handleMessage ⟨[], []⟩ 1 (.playerRegister "A")) 1
        (.playerRegister "A")).screenConnections
      = (handleMessage (⟨[], []⟩ : ServerState) 1 (.playerRegister "A")).screenConnections ∧
    mapGet (handleMessage (handleMessage ⟨[], []⟩ 1 (.playerRegister "A")) 1
        (.playerRegister "A")).screenConnections "A" = some 1 ∧
    (keysNodup (⟨[], []⟩ : ServerState).screenConnections →
      ((handleMessage (handleMessage ⟨[], []⟩ 1 (.playerRegister "A")) 1
          (.playerRegister "A")).screenConnections.filter
        (fun p => p.1 = "A")).length = 1)) :=
  ⟨by decide, playerRegister_idempotent ⟨[], []⟩ 1 "A" (by decide)⟩

/-- C4: every registry operation preserves the invariant that each
deviceKey is mapped to at most one connection (distinct keys), and after a
registration the key looks up to the connection just registered — a newer
registration for the same key supersedes the previous mapping. -/
theorem registry_invariant (s : ServerState) (ws : Conn) (msg : WsMessage) (k : String)
    (hnd : keysNodup s.screenConnections) :
    keysNodup (handleMessage s ws msg).screenConnections ∧
    keysNodup (handleClose s ws).screenConnections ∧
    (k ≠ "" →
      mapGet (handleMessage s ws (.playerRegister k)).screenConnections k = some ws) := by
  refine ⟨?_, ?_, ?_⟩
  · cases msg with
    | playerRegister dk =>
        by_cases hdk : dk = ""
        · simpa [handleMessage, hdk] using hnd
        · simpa [handleMessage, hdk] using
            keysNodup_mapSet s.screenConnections dk ws hnd
    | playerStatus dk st => exact hnd
    | registerScreen sid => exact hnd
    | unknownType => exact hnd
    | malformed => exact hnd
  · cases hfind : s.screenConnections.find? (fun p => p.2 = ws) with
    | some kv =>
        simpa [handleClose, hfind] using
          keysNodup_mapDelete s.screenConnections kv.1 hnd
    | none => simpa [handleClose, hfind] using hnd
  · intro hk
    simp [handleMessage, hk, mapGet_mapSet_self]

/-- Witness for C4 at a concrete input: a registration of "A" on
connection 1 over a one-entry registry. -/
theorem registry_invariant_witness :
    keysNodup (⟨[("B", 2)], []⟩ : ServerState).screenConnections ∧
    (keysNodup (handleMessage ⟨[("B", 2)], []⟩ 1 (.playerRegister "A")).screenConnections ∧
    keysNodup (handleClose ⟨[("B", 2)], []⟩ 1).screenConnections ∧
    (("A" : String) ≠ "" →
      mapGet (handleMessage ⟨[("B", 2)], []⟩ 1
        (.playerRegister "A")).screenConnections "A" = some 1)) :=
  ⟨by decide, registry_invariant ⟨[("B", 2)], []⟩ 1 (.playerRegister "A") "A" (by decide)⟩

/-- C5: broadcasting a LOAD_PLAYLIST instruction over a target list sends
exactly to the targets currently mapped to an OPEN connection (the send
list is the filterMap of the lookup-and-open check over the target list,
so each registered-and-open occurrence in the list yields exactly one
send); every send carries the one shared serialization built before the
loop; absent or non-open targets are skipped silently; and a target list
none of whose members is registered yields zero sends and no error (the
loop is total). -/
theorem broadcast_dispatch_spec (registry : Registry) (isOpen : Conn → Bool)
    (playlist broadcastId : String) (screenIds : List String) :
    (∀ e ∈ dispatchSends registry isOpen (loadPlaylistMessage playlist broadcastId)
        screenIds, e.2 = loadPlaylistMessage playlist broadcastId) ∧
    dispatchSends registry isOpen (loadPlaylistMessage playlist broadcastId) screenIds =
      screenIds.filterMap (fun screenId =>
        match mapGet registry screenId with
        | some screen =>
            if isOpen screen then
              some (screen, loadPlaylistMessage playlist broadcastId)
            else none
        | none => none) ∧
    (dispatchSends registry isOpen (loadPlaylistMessage playlist broadcastId)
        screenIds).length =
      (screenIds.filter (targetDelivered registry isOpen)).length ∧
    ((∀ sid ∈ screenIds, mapGet registry sid = none) →
      dispatchSends registry isOpen (loadPlaylistMessage playlist broadcastId)
        screenIds = []) :=
  ⟨dispatchSends_message_eq registry isOpen (loadPlaylistMessage playlist broadcastId)
      screenIds,
   dispatchSends_eq_filterMap registry isOpen (loadPlaylistMessage playlist broadcastId)
      screenIds,
   dispatchSends_length registry isOpen (loadPlaylistMessage playlist broadcastId)
      screenIds,
   dispatchSends_eq_nil registry isOpen (loadPlaylistMessage playlist broadcastId)
      screenIds⟩

/-- Witness for C5 at a concrete input: dispatching to ["A", "B"] over the
empty registry makes zero sends. -/
theorem broadcast_dispatch_spec_witness :
    (∀ sid ∈ (["A", "B"] : List String), mapGet [] sid = none) ∧
    dispatchSends [] (fun _ => true) (loadPlaylistMessage "p" "x") ["A", "B"] = [] :=
  ⟨by decide,
   (broadcast_dispatch_spec [] (fun _ => true) "p" "x" ["A", "B"]).2.2.2 (by decide)⟩

/-- C2: a send produced by the dispatch loop always goes to a connection
that some element of `screenIds` resolves to through the registry lookup
(`screenConnections.get(screenId)`, part_000 line 373), i.e. only when the
listed string equals a deviceKey under which a player registered; a
connection none of whose registry keys occurs in `screenIds` — in
particular a screen registered under its random-UUID `deviceKey` while
`screenIds` carries its distinct database id — receives zero messages. -/
theorem broadcast_requires_deviceKey_match (registry : Registry) (isOpen : Conn → Bool)
    (message : String) (screenIds : List String) (c : Conn) :
    (∀ e ∈ dispatchSends registry isOpen message screenIds,
      ∃ sid ∈ screenIds, mapGet registry sid = some e.1 ∧ isOpen e.1 = true) ∧
    ((∀ kv ∈ registry, kv.2 = c → kv.1 ∉ screenIds) →
      ∀ msg, (c, msg) ∉ dispatchSends registry isOpen message screenIds) := by
  constructor
  · induction screenIds with
    | nil => simp [dispatchSends]
    | cons sid rest ih =>
        cases hget : mapGet registry sid with
        | some screen =>
            by_cases hopen : isOpen screen
            · intro e he
              rcases List.mem_cons.mp (by simpa [dispatchSends, hget, hopen] using he)
                with heq | hmem
              · exact ⟨sid, List.mem_cons_self sid rest, by simp [heq, hget, hopen]⟩
              · obtain ⟨sid', hs', hg'⟩ := ih e hmem
                exact ⟨sid', List.mem_cons_of_mem sid hs', hg'⟩
            · intro e he
              obtain ⟨sid', hs', hg'⟩ :=
                ih e (by simpa [dispatchSends, hget, hopen] using he)
              exact ⟨sid', List.mem_cons_of_mem sid hs', hg'⟩
        | none =>
            intro e he
            obtain ⟨sid', hs', hg'⟩ := ih e (by simpa [dispatchSends, hget] using he)
            exact ⟨sid', List.mem_cons_of_mem sid hs', hg'⟩
  · induction screenIds with
    | nil => simp [dispatchSends]
    | cons sid rest ih =>
        intro h msg
        have hrest : ∀ kv ∈ registry, kv.2 = c → kv.1 ∉ rest := by
          intro kv hkv hv
          exact fun hr => h kv hkv hv (List.mem_cons_of_mem sid hr)
        cases hget : mapGet registry sid with
        | some screen =>
            by_cases hopen : isOpen screen
            · intro hmem
              rcases (by simpa [dispatchSends, hget, hopen] using hmem :
                  c = screen ∧ msg = message ∨
                    (c, msg) ∈ dispatchSends registry isOpen message rest) with ⟨hc, _⟩ | hm
              · have hcget : mapGet registry sid = some c := by rw [hget, ← hc]
                have hmemr : (sid, c) ∈ registry := mapGet_mem registry sid c hcget
                exact h (sid, c) hmemr rfl (List.mem_cons_self sid rest)
              · exact ih hrest msg hm
            · intro hmem
              exact ih hrest msg (by simpa [dispatchSends, hget, hopen] using hmem)
        | none =>
            intro hmem
            exact ih hrest msg (by simpa [dispatchSends, hget] using hmem)

/-- Witness for C2 at a concrete input: a screen registered under deviceKey
"u" on connection 5 receives nothing when the broadcast targets the
distinct identifier "s". -/
theorem broadcast_requires_deviceKey_match_witness :
    (∀ kv ∈ ([("u", 5)] : Registry), kv.2 = 5 → kv.1 ∉ (["s"] : List String)) ∧
    (5, "m") ∉ dispatchSends [("u", 5)] (fun _ => true) "m" ["s"] :=
  ⟨by decide,
   (broadcast_requires_deviceKey_match [("u", 5)] (fun _ => true) "m" ["s"] 5).2
     (by decide) "m"⟩

/-- C10: the close handler (part_000 lines 467-477) removes at most one
registry entry — exactly the first entry in insertion order whose value is
the closing connection, when one exists — and appends exactly one
mark-offline call for that entry's deviceKey; every other key, including a
second deviceKey mapped to the very same closed connection, keeps its
previous mapping and is not marked offline. -/
theorem close_removes_first_value_match (s : ServerState) (ws : Conn) :
    (s.screenConnections.find? (fun p => p.2 = ws) = none → handleClose s ws = s) ∧
    (∀ kv, s.screenConnections.find? (fun p => p.2 = ws) = some kv →
      (handleClose s ws).screenConnections = mapDelete s.screenConnections kv.1 ∧
      (handleClose s ws).screenConnections.length + 1 = s.screenConnections.length ∧
      (handleClose s ws).onlineCalls = s.onlineCalls ++ [(kv.1, false)] ∧
      (∀ k, k ≠ kv.1 →
        mapGet (handleClose s ws).screenConnections k = mapGet s.screenConnections k)) := by
  constructor
  · intro h
    simp [handleClose, h]
  · intro kv h
    have hmem : kv ∈ s.screenConnections := List.mem_of_find?_eq_some h
    have hmem' : (kv.1, kv.2) ∈ s.screenConnections := by
      simpa using hmem
    refine ⟨by simp [handleClose, h], ?_, by simp [handleClose, h], ?_⟩
    · have := mapDelete_length_of_mem s.screenConnections kv.1 kv.2 hmem'
      simpa [handleClose, h] using this
    · intro k hk
      have := mapGet_mapDelete_ne s.screenConnections kv.1 k hk
      simpa [handleClose, h] using this

/-- Witness for C10 at a concrete input: connection 1 is registered under
both "A" and "B"; on close only the first matching entry "A" is removed
and marked offline, while "B" stays mapped to the closed connection. -/
theorem close_removes_first_value_match_witness :
    (⟨[("A", 1), ("B", 1)], []⟩ : ServerState).screenConnections.find?
        (fun p => p.2 = 1) = some ("A", 1) ∧
    mapGet (handleClose ⟨[("A", 1), ("B", 1)], []⟩ 1).screenConnections "B" = some 1 := by
  refine ⟨by decide, ?_⟩
  have h := ((close_removes_first_value_match ⟨[("A", 1), ("B", 1)], []⟩ 1).2
    ("A", 1) (by decide)).2.2.2 "B" (by decide)
  rw [h]
  decide

/-- C3 counterexample: in the second variant, connection 1 registers
screenId "k" via REGISTER_SCREEN (installing the key-based close listener
of part_000 lines 858-861), connection 2 then registers under the same key
"k", superseding it; when the stale connection 1 closes, its key-based
listener deletes "k", so the newer mapping k -> 2 IS removed — refuting
the claim that a close removes an entry only when that entry's current
value is the closing connection. -/
theorem stale_close_removes_new_mapping_cex :
    mapGet (handleMessage2 (handleMessage2 ⟨[], [], []⟩ 1 (.registerScreen "k")) 2
      (.registerScreen "k")).screenConnections "k" = some 2 ∧
    mapGet (handleClose2 (handleMessage2 (handleMessage2 ⟨[], [], []⟩ 1
      (.registerScreen "k")) 2 (.registerScreen "k")) 1).screenConnections "k" = none := by
  constructor
  · rfl
  · rfl

/-- C3 amended: for the value-match close handler (the first variant's
only close listener, part_000 lines 467-477, and the connection-level
listener of the second variant) the claim holds — if key k is currently
mapped to connection b and a different connection a closes, the mapping
k -> b survives, because the scan removes only an entry whose value is the
closing connection itself; the REGISTER_SCREEN path of the second variant
is excluded, since its per-registration listener deletes by captured key
(see the counterexample). -/
theorem close_preserves_superseded_mapping (s : ServerState) (a b : Conn) (k : String)
    (hnd : keysNodup s.screenConnections)
    (hb : mapGet s.screenConnections k = some b) (hne : b ≠ a) :
    mapGet (handleClose s a).screenConnections k = some b := by
  cases hfind : s.screenConnections.find? (fun p => p.2 = a) with
  | none => simpa [handleClose, hfind] using hb
  | some kv =>
      have hkv2 : kv.2 = a := by
        have := List.find?_some hfind
        exact of_decide_eq_true this
      have hmem : (kv.1, kv.2) ∈ s.screenConnections := by
        simpa using List.mem_of_find?_eq_some hfind
      have hkne : k ≠ kv.1 := by
        intro hkk
        have hget1 : mapGet s.screenConnections kv.1 = some kv.2 :=
          mapGet_of_mem_nodup s.screenConnections kv.1 kv.2 hnd hmem
        rw [← hkk, hb] at hget1
        exact hne ((Option.some.inj hget1).trans hkv2)
      have := mapGet_mapDelete_ne s.screenConnections kv.1 k hkne
      simp only [handleClose, hfind]
      rw [this]
      exact hb

/-- Witness for the amended C3 at a concrete input: "k" is mapped to
connection 2; the stale connection 1 closes; the mapping survives. -/
theorem close_preserves_superseded_mapping_witness :
    keysNodup (⟨[("k", 2)], []⟩ : ServerState).screenConnections ∧
    mapGet (⟨[("k", 2)], []⟩ : ServerState).screenConnections "k" = some 2 ∧
    (2 : Conn) ≠ 1 ∧
    mapGet (handleClose ⟨[("k", 2)], []⟩ 1).screenConnections "k" = some 2 :=
  ⟨by decide, by decide, by decide,
   close_preserves_superseded_mapping ⟨[("k", 2)], []⟩ 1 2 "k"
     (by decide) (by decide) (by decide)⟩

/-- C1 counterexample: screens "A" and "B" are registered on open
connections 1 and 2; sending throws on connection 1.  Dispatching to
["A", "B"] performs zero sends and aborts (the `forEach` callback's
exception propagates — there is no per-target catch inside the loop,
part_000 lines 372-377), although the same dispatch with no failure would
deliver to both; so delivery does NOT proceed to the remaining target. -/
theorem broadcast_error_aborts_loop_cex :
    dispatchLoop [("A", 1), ("B", 2)] (fun _ => true) (fun c => c == 1) "m" ["A", "B"]
      = ([], false) ∧
    dispatchLoop [("A", 1), ("B", 2)] (fun _ => true) (fun _ => false) "m" ["A", "B"]
      = ([("A", 1), ("B", 2)].map (fun p => (p.2, "m")), true) := by
  constructor
  · rfl
  · rfl

/-- C1 amended: a transmission error on one target's connection aborts
delivery to every target later in the list — the dispatch loop stops at
the first failing send, and the error is caught and logged once by the
single route-level catch of POST /api/broadcasts (part_000 lines 400-403),
which then responds 500 after the partial sends already made; it is not
caught per target and the loop does not continue. -/
theorem broadcast_error_aborts (registry : Registry) (isOpen sendFails : Conn → Bool)
    (playlist broadcastId bad : String) (pre post : List String) (c : Conn)
    (hpre : (dispatchLoop registry isOpen sendFails
      (loadPlaylistMessage playlist broadcastId) pre).2 = true)
    (hget : mapGet registry bad = some c) (hopen : isOpen c = true)
    (hfail : sendFails c = true) :
    dispatchLoop registry isOpen sendFails (loadPlaylistMessage playlist broadcastId)
        (pre ++ bad :: post) =
      ((dispatchLoop registry isOpen sendFails
        (loadPlaylistMessage playlist broadcastId) pre).1, false) ∧
    broadcastRoute registry isOpen sendFails playlist broadcastId (pre ++ bad :: post) =
      .serverError (dispatchLoop registry isOpen sendFails
        (loadPlaylistMessage playlist broadcastId) pre).1 := by
  have hbad : dispatchLoop registry isOpen sendFails
      (loadPlaylistMessage playlist broadcastId) (bad :: post) = ([], false) := by
    simp [dispatchLoop, hget, hopen, hfail]
  have hsplit := dispatchLoop_append registry isOpen sendFails
    (loadPlaylistMessage playlist broadcastId) pre (bad :: post)
  rw [hbad, hpre] at hsplit
  simp only [if_true] at hsplit
  constructor
  · simpa using hsplit
  · simp only [broadcastRoute]
    rw [hsplit]
    simp

/-- Witness for the amended C1 at a concrete input: with "A" on connection
1 (send succeeds) and "B" on connection 2 (send throws), dispatching to
["A"] ++ "B" :: ["C"] stops after the send to 1 and the route responds
with the server error. -/
theorem broadcast_error_aborts_witness :
    (dispatchLoop [("A", 1), ("B", 2)] (fun _ => true) (fun c => c == 2)
      (loadPlaylistMessage "p" "x") ["A"]).2 = true ∧
    mapGet [("A", 1), ("B", 2)] "B" = some 2 ∧
    ((fun (_ : Conn) => true) 2) = true ∧
    ((fun (c : Conn) => c == 2) 2) = true ∧
    (dispatchLoop [("A", 1), ("B", 2)] (fun _ => true) (fun c => c == 2)
        (loadPlaylistMessage "p" "x") (["A"] ++ "B" :: ["C"]) =
      ((dispatchLoop [("A", 1), ("B", 2)] (fun _ => true) (fun c => c == 2)
        (loadPlaylistMessage "p" "x") ["A"]).1, false) ∧
    broadcastRoute [("A", 1), ("B", 2)] (fun _ => true) (fun c => c == 2) "p" "x"
        (["A"] ++ "B" :: ["C"]) =
      .serverError (dispatchLoop [("A", 1), ("B", 2)] (fun _ => true) (fun c => c == 2)
        (loadPlaylistMessage "p" "x") ["A"]).1) :=
  ⟨by decide, by decide, by decide, by decide,
   broadcast_error_aborts [("A", 1), ("B", 2)] (fun _ => true) (fun c => c == 2)
     "p" "x" "B" ["A"] ["C"] 2 (by decide) (by decide) (by decide) (by decide)⟩

end Signage
